import Mathlib

/-!
Shallow embedding of the kinect-rtsp capture-to-publish pipeline
(sources under `src/`: `color.rs`, `infrared.rs`, `infrared_config.rs`,
`audio.rs`, `rtsp_publisher.rs`, `main.rs`).

Floating-point (`f32`) arithmetic in the source is modelled by exact
rational arithmetic over `ℚ`; the Rust rounding-mode primitives
(`f32::round`, the saturating `as i16` cast, `f32::clamp`) are modelled
explicitly below.  Machine integers are modelled as `ℕ`/`ℤ` with explicit
wrap-around (`% 2 ^ 64`) where the source relies on it.
-/

/-! ## Rust numeric primitives -/

/-- Computable floor of a rational (kernel-reducible, unlike the bare
`Int.floor` instance on `ℚ`). -/
def ratFloor (q : ℚ) : ℤ := Rat.floor q

/-- Computable ceiling of a rational. -/
def ratCeil (q : ℚ) : ℤ := -Rat.floor (-q)

/-- Rust `f32::round`: round half away from zero. -/
def rustRound (q : ℚ) : ℤ :=
  if 0 ≤ q then ratFloor (q + 1 / 2) else ratCeil (q - 1 / 2)

/-- Rust float-to-integer truncation (toward zero), the core of an `as i16` cast. -/
def rustTrunc (q : ℚ) : ℤ :=
  if 0 ≤ q then ratFloor q else ratCeil q

/-- Rust `as i16` cast from a float: truncate toward zero, saturating to the
`i16` range. -/
def rustAsI16 (q : ℚ) : ℤ :=
  max (-32768) (min 32767 (rustTrunc q))

/-- Rust `x.clamp(lo, hi)` on floats: `min hi (max lo x)`. -/
def rustClamp (x lo hi : ℚ) : ℚ :=
  min hi (max lo x)

/-! ## Infrared configuration (`infrared_config.rs`) -/

/-- `InfraredConfig` from `infrared_config.rs` (its three `f32` fields
modelled as `ℚ`). -/
structure InfraredConfig where
  infrared_output_value_minimum : ℚ
  infrared_output_value_maximum : ℚ
  infrared_source_scale : ℚ
deriving DecidableEq

/-- `InfraredConfig::default()`: min 0.25, max 1.0, scale 3.0. -/
def InfraredConfig.default : InfraredConfig :=
  { infrared_output_value_minimum := 1 / 4
    infrared_output_value_maximum := 1
    infrared_source_scale := 3 }

/-- `InfraredConfigManager::load_config` from `infrared_config.rs`, with the
file read and the JSON parse abstracted into the `parsed` argument (an
`Except.error` stands for an unreadable or unparsable document).  The four
validation checks are translated in source order. -/
def load_config (parsed : Except String InfraredConfig) : Except String InfraredConfig :=
  match parsed with
  | Except.error e => Except.error e
  | Except.ok config =>
    if config.infrared_output_value_minimum < 0 ∨ config.infrared_output_value_minimum > 1 then
      Except.error "infrared_output_value_minimum must be between 0.0 and 1.0"
    else if config.infrared_output_value_maximum < 0 ∨ config.infrared_output_value_maximum > 1
    then
      Except.error "infrared_output_value_maximum must be between 0.0 and 1.0"
    else if config.infrared_output_value_minimum ≥ config.infrared_output_value_maximum then
      Except.error "infrared_output_value_minimum must be less than infrared_output_value_maximum"
    else if config.infrared_source_scale ≤ 0 then
      Except.error "infrared_source_scale must be greater than 0.0"
    else Except.ok config

/-- State of `InfraredConfigManager` from `infrared_config.rs`: the current
validated config snapshot and the recorded file-modification time (modelled
as an abstract `ℕ` timestamp). -/
structure InfraredConfigManager where
  config : InfraredConfig
  last_modified : Option ℕ
deriving DecidableEq

/-- `InfraredConfigManager::check_and_reload` from `infrared_config.rs`.
The two filesystem probes are abstracted into arguments: `current_modified`
is the outcome of `get_file_modified_time` and `parsed` the outcome of
reading and JSON-parsing the file (fed to `load_config`).  Returns the
source's `Result<bool>` together with the post-state. -/
def check_and_reload (st : InfraredConfigManager)
    (current_modified : Except String ℕ)
    (parsed : Except String InfraredConfig) :
    Except String Bool × InfraredConfigManager :=
  match current_modified with
  | Except.error e => (Except.error e, st)
  | Except.ok current =>
    match st.last_modified with
    | some last =>
      if last < current then
        match load_config parsed with
        | Except.error e => (Except.error e, st)
        | Except.ok new_config =>
          (Except.ok true, { config := new_config, last_modified := some current })
      else (Except.ok false, st)
    | none => (Except.ok false, st)

/-! ## Infrared LUT generation (`infrared.rs`) -/

/-- `INFRARED_SOURCE_VALUE_MAXIMUM` from `infrared.rs` (65535.0). -/
def INFRARED_SOURCE_VALUE_MAXIMUM : ℚ := 65535

/-- One entry of `generate_lut` from `infrared.rs`, at index
`infrared_point` (the raw 16-bit sample).  Source, per entry:
`f = (pt as f32 / 65535.0 * scale) * (1.0 - min) + min;`
`clamped = max.min(f);`
`byte = (clamped * 255.0).round().clamp(0.0, 255.0) as u8`. -/
def generate_lut (config : InfraredConfig) (infrared_point : ℕ) : ℕ :=
  let f : ℚ :=
    ((infrared_point : ℚ) / INFRARED_SOURCE_VALUE_MAXIMUM * config.infrared_source_scale)
      * (1 - config.infrared_output_value_minimum)
      + config.infrared_output_value_minimum
  let clamped : ℚ := min config.infrared_output_value_maximum f
  Int.toNat (max 0 (min 255 (rustRound (clamped * 255))))

/-- The LUT entry as the spec's §4.4 formula words it:
`byte = round(clamp(clamped * 255, 0, 255))` (clamp before round, where the
source rounds before clamping). -/
def lut_entry_spec (config : InfraredConfig) (s : ℕ) : ℕ :=
  let f : ℚ :=
    ((s : ℚ) / 65535) * config.infrared_source_scale
      * (1 - config.infrared_output_value_minimum)
      + config.infrared_output_value_minimum
  let clamped : ℚ := min config.infrared_output_value_maximum f
  Int.toNat (rustRound (rustClamp (clamped * 255) 0 255))

/-! ## Bounded lossy frame channels (`ringbuf` SPSC ring buffers) -/

/-- Model of the `ringbuf` crate's bounded SPSC ring buffer as used by all
three pipelines: a fixed capacity plus the queued items in FIFO order. -/
structure RingBuf (α : Type) where
  cap : ℕ
  data : List α
deriving DecidableEq

/-- A freshly created channel (`HeapRb::new(cap)` followed by `split`). -/
def RingBuf.empty (α : Type) (cap : ℕ) : RingBuf α := ⟨cap, []⟩

/-- `try_push`: appends when a slot is free, otherwise returns the item back
(`Err`), which the capture loops log as a dropped frame; it never blocks. -/
def RingBuf.try_push {α : Type} (rb : RingBuf α) (x : α) : RingBuf α × Bool :=
  if rb.data.length < rb.cap then ({ rb with data := rb.data ++ [x] }, true) else (rb, false)

/-- `try_pop`: returns the oldest queued item, or `none` immediately when the
channel is empty. -/
def RingBuf.try_pop {α : Type} (rb : RingBuf α) : Option (α × RingBuf α) :=
  match rb.data with
  | [] => none
  | x :: rest => some (x, { rb with data := rest })

/-- One capture-loop push (`if raw_tx.try_push(data).is_err() ... log drop`),
tracking how many frames were dropped. -/
def push_step {α : Type} (p : RingBuf α × ℕ) (x : α) : RingBuf α × ℕ :=
  let r := RingBuf.try_push p.1 x
  (r.1, if r.2 then p.2 else p.2 + 1)

/-- Pushing a whole sequence of captured frames, counting drops. -/
def push_seq {α : Type} (rb : RingBuf α) (xs : List α) : RingBuf α × ℕ :=
  xs.foldl push_step (rb, 0)

/-- `HeapRb::<ColorFrameData>::new(16)` in `color.rs`. -/
def color_channel_capacity : ℕ := 16

/-- `HeapRb::<InfraredFrameData>::new(32)` in `infrared.rs`. -/
def infrared_channel_capacity : ℕ := 32

/-- `HeapRb::<AudioFrameData>::new(32)` in `audio.rs`. -/
def audio_channel_capacity : ℕ := 32

/-! ## Activation gate counters (`rtsp_publisher.rs`) -/

/-- Modulus of the `AtomicUsize` session counters (64-bit target). -/
def USIZE_MOD : ℕ := 2 ^ 64

/-- `fetch_add(1, SeqCst)` on a mount's client counter when a session starts
(`connect_media_configure` in `rtsp_publisher.rs`): wrapping increment. -/
def session_start (c : ℕ) : ℕ := (c + 1) % USIZE_MOD

/-- `fetch_sub(1, SeqCst)` on a mount's client counter when that session
unprepares (`connect_unprepared`): `AtomicUsize::fetch_sub` wraps on
underflow — the source contains no clamp. -/
def session_end (c : ℕ) : ℕ := (c + (USIZE_MOD - 1)) % USIZE_MOD

/-- `is_color_active` / `is_infra_active`: `client_count.load(SeqCst) > 0`. -/
def is_stream_active (c : ℕ) : Bool := decide (0 < c)

/-! ## Capture-loop resource lifecycle (`color.rs`, `audio.rs`, `infrared.rs`) -/

/-- Resources held by a capture loop across iterations: the device capture
object and the frame iterator. -/
structure CaptureState where
  capture_held : Bool
  iter_held : Bool
deriving DecidableEq

/-- One gate-check iteration of `color_frame_capture` (`color.rs`), reduced to
its resource effects; the returned `Bool` records whether the device iterator
was polled this iteration.  The inactive branch sets `iter = None` and
`color_capture.take()`, then sleeps.  The active branch (success path —
acquisition failure terminates the capture thread) holds both resources and
polls. -/
def color_capture_step (active : Bool) (st : CaptureState) : CaptureState × Bool :=
  if !active then (⟨false, false⟩, false)
  else (⟨true, true⟩, true)

/-- One gate-check iteration of `audio_frame_capture` (`audio.rs`); same
resource structure as the color loop. -/
def audio_capture_step (active : Bool) (st : CaptureState) : CaptureState × Bool :=
  if !active then (⟨false, false⟩, false)
  else (⟨true, true⟩, true)

/-- One gate-check iteration of `infrared_frame_capture` (`infrared.rs`): the
`InfraredFrameCapture` device resource is created once before the loop and no
branch of the loop body ever drops it; the inactive branch drops only the
iterator. -/
def infrared_capture_step (active : Bool) (st : CaptureState) : CaptureState × Bool :=
  if !active then (⟨st.capture_held, false⟩, false)
  else (⟨st.capture_held, true⟩, true)

/-- State in which the infrared loop is entered: device opened, no iterator. -/
def infrared_capture_initial : CaptureState := ⟨true, false⟩

/-! ## Audio re-framing (`audio.rs`, module `audio_frame_buffer`) -/

/-- Modelled from the spec: `main.rs` declares `mod audio_frame_buffer;`, but
`audio_frame_buffer.rs` itself is not among the provided sources.  Per the
spec's AudioAccumulator, this is "an ordered sample queue": `append_samples`
appends incoming samples in arrival order, and `pop_frame n` removes and
returns exactly the `n` oldest samples when at least `n` are buffered,
otherwise returns nothing and leaves the buffer unchanged; remainders are
retained across calls. -/
structure AudioFrameBuffer (α : Type) where
  samples : List α
deriving DecidableEq

/-- Modelled from the spec: `AudioFrameBuffer::<f32>::new()`, an empty queue. -/
def AudioFrameBuffer.new (α : Type) : AudioFrameBuffer α := ⟨[]⟩

/-- Modelled from the spec: append samples in arrival order. -/
def AudioFrameBuffer.append_samples {α : Type} (b : AudioFrameBuffer α) (xs : List α) :
    AudioFrameBuffer α :=
  ⟨b.samples ++ xs⟩

/-- Modelled from the spec: pop exactly `n` oldest samples when available. -/
def AudioFrameBuffer.pop_frame {α : Type} (b : AudioFrameBuffer α) (n : ℕ) :
    Option (List α × AudioFrameBuffer α) :=
  if n ≤ b.samples.length then some (b.samples.take n, ⟨b.samples.drop n⟩) else none

/-- `const FRAME_SIZE: usize = 320` from `audio_frame_publish` (20 ms at
16 kHz mono). -/
def FRAME_SIZE : ℕ := 320

/-- Fuel-indexed worker splitting a queue into full `n`-sample chunks plus a
remainder (fuel makes the recursion structural; `l.length` fuel is always
enough). -/
def chunks_go {α : Type} (fuel n : ℕ) (l : List α) : List (List α) × List α :=
  match fuel with
  | 0 => ([], l)
  | fuel + 1 =>
    if 0 < n ∧ n ≤ l.length then
      let r := chunks_go fuel n (l.drop n)
      (l.take n :: r.1, r.2)
    else ([], l)

/-- The publish loop's drain, `while let Some(chunk) = buffer.pop_frame(n)`:
every full `n`-sample chunk in order, plus the retained remainder. -/
def drain_frames {α : Type} (b : AudioFrameBuffer α) (n : ℕ) :
    List (List α) × AudioFrameBuffer α :=
  let r := chunks_go b.samples.length n b.samples
  (r.1, ⟨r.2⟩)

/-- One processed batch of the publish loop: append the decoded samples, then
drain all full chunks. -/
def reframe_step {α : Type} (n : ℕ) (acc : List (List α) × AudioFrameBuffer α)
    (batch : List α) : List (List α) × AudioFrameBuffer α :=
  let r := drain_frames (acc.2.append_samples batch) n
  (acc.1 ++ r.1, r.2)

/-- The publish loop over a whole sequence of appended sample batches,
collecting every emitted chunk and the final buffer state. -/
def reframe {α : Type} (n : ℕ) (batches : List (List α)) :
    List (List α) × AudioFrameBuffer α :=
  batches.foldl (reframe_step n) ([], AudioFrameBuffer.new α)

/-! ## Audio sample conversion and dual publication (`rtsp_publisher.rs`) -/

/-- One sample of `RtspPublisher::send_audio_f32`:
`(sample.clamp(-1.0, 1.0) * i16::MAX as f32) as i16`. -/
def send_audio_sample (sample : ℚ) : ℤ :=
  rustAsI16 (rustClamp sample (-1) 1 * 32767)

/-- Two's-complement little-endian byte encoding of one `i16` value, as laid
out by `bytemuck::cast_slice(&s16_data)`. -/
def i16_le_bytes (v : ℤ) : List ℕ :=
  [(v % 65536).toNat % 256, (v % 65536).toNat / 256]

/-- The two audio appsrc destinations of `RtspPublisher`. -/
inductive AudioSink
  | colorAudio
  | infraAudio
deriving DecidableEq

/-- `RtspPublisher::send_audio_f32`: converts the chunk to S16LE once, then
pushes that same buffer to the color-stream audio appsrc and to the
infrared-stream audio appsrc, each only when its handle is present.  The
result lists the performed pushes in order. -/
def send_audio_f32 (color_audio_src infra_audio_src : Bool) (samples_f32 : List ℚ) :
    List (AudioSink × List ℕ) :=
  let s16_data : List ℤ := samples_f32.map send_audio_sample
  let bytes : List ℕ := (s16_data.map i16_le_bytes).flatten
  (if color_audio_src then [(AudioSink.colorAudio, bytes)] else [])
    ++ (if infra_audio_src then [(AudioSink.infraAudio, bytes)] else [])

/-- Little-endian 32-bit word built from four payload bytes, standing for the
bit pattern of one `f32` sample. -/
def le_word_32 (b0 b1 b2 b3 : ℕ) : ℕ :=
  b0 + 256 * b1 + 65536 * b2 + 16777216 * b3

/-- Grouping of the payload bytes into little-endian 32-bit sample words. -/
def group_f32_le : List ℕ → List ℕ
  | b0 :: b1 :: b2 :: b3 :: rest => le_word_32 b0 b1 b2 b3 :: group_f32_le rest
  | _ => []

/-- `bytemuck::try_cast_slice::<u8, f32>` on the frame payload: succeeds
exactly when the byte length is a multiple of 4 (the slice-alignment
side condition of the real crate is idealized away, as byte data has
alignment 1 in this model), yielding the samples' bit patterns. -/
def try_cast_slice_f32 (bytes : List ℕ) : Option (List ℕ) :=
  if bytes.length % 4 = 0 then some (group_f32_le bytes) else none

/-- One popped-frame iteration of `audio_frame_publish` (`audio.rs`): an empty
payload is skipped; a payload whose length is not a multiple of 4 is skipped
with a warning; otherwise the decoded samples are appended to the
`AudioFrameBuffer` and every full 320-sample chunk is drained and sent.  The
result is the new buffer plus the chunks sent this iteration. -/
def audio_frame_publish_step (b : AudioFrameBuffer ℕ) (frame_data : List ℕ) :
    AudioFrameBuffer ℕ × List (List ℕ) :=
  if frame_data.isEmpty then (b, [])
  else
    match try_cast_slice_f32 frame_data with
    | some samples =>
      let r := drain_frames (b.append_samples samples) FRAME_SIZE
      (r.2, r.1)
    | none => (b, [])

/-! ## Supporting lemmas -/

theorem ratFloor_eq (q : ℚ) : ratFloor q = ⌊q⌋ := by
  rw [ratFloor, Rat.floor_def', ← Rat.floor_def]

theorem ratCeil_eq (q : ℚ) : ratCeil q = ⌈q⌉ := by
  rw [ratCeil, Rat.floor_def', ← Rat.floor_def, Int.floor_neg, neg_neg]

theorem load_config_ok_iff (c : InfraredConfig) :
    load_config (Except.ok c) = Except.ok c ↔
      (0 ≤ c.infrared_output_value_minimum ∧ c.infrared_output_value_minimum ≤ 1 ∧
        0 ≤ c.infrared_output_value_maximum ∧ c.infrared_output_value_maximum ≤ 1 ∧
        c.infrared_output_value_minimum < c.infrared_output_value_maximum ∧
        0 < c.infrared_source_scale) := by
  simp only [load_config]
  split_ifs with h1 h2 h3 h4
  · exact iff_of_false (by simp)
      (by rintro ⟨hm0, hm1, hM0, hM1, hmM, hk⟩; rcases h1 with h | h <;> linarith)
  · exact iff_of_false (by simp)
      (by rintro ⟨hm0, hm1, hM0, hM1, hmM, hk⟩; rcases h2 with h | h <;> linarith)
  · exact iff_of_false (by simp) (by rintro ⟨hm0, hm1, hM0, hM1, hmM, hk⟩; linarith)
  · exact iff_of_false (by simp) (by rintro ⟨hm0, hm1, hM0, hM1, hmM, hk⟩; linarith)
  · push_neg at h1 h2 h3 h4
    exact iff_of_true rfl ⟨h1.1, h1.2, h2.1, h2.2, h3, h4⟩

theorem rustRound_of_nonneg (x : ℚ) (hx : 0 ≤ x) : rustRound x = ⌊x + 1 / 2⌋ := by
  rw [rustRound, if_pos hx, ratFloor_eq]

theorem rustRound_nonneg (x : ℚ) (hx : 0 ≤ x) : 0 ≤ rustRound x := by
  rw [rustRound_of_nonneg x hx]
  exact Int.le_floor.mpr (by push_cast; linarith)

theorem rustRound_le_255 (x : ℚ) (hx : 0 ≤ x) (hb : x ≤ 255) : rustRound x ≤ 255 := by
  rw [rustRound_of_nonneg x hx]
  have h : (⌊x + 1 / 2⌋ : ℤ) < 256 := Int.floor_lt.mpr (by push_cast; linarith)
  omega

/-- With the tone-mapped value in range, the source's round-then-clamp agrees
with the spec's clamp-then-round. -/
theorem generate_lut_eq_spec (config : InfraredConfig) (s : ℕ)
    (hm0 : 0 ≤ config.infrared_output_value_minimum)
    (hm1 : config.infrared_output_value_minimum ≤ 1)
    (hM0 : 0 ≤ config.infrared_output_value_maximum)
    (hM1 : config.infrared_output_value_maximum ≤ 1)
    (hk : 0 < config.infrared_source_scale) :
    generate_lut config s = lut_entry_spec config s := by
  obtain ⟨m, M, k⟩ := config
  simp only [generate_lut, lut_entry_spec, INFRARED_SOURCE_VALUE_MAXIMUM, rustClamp] at *
  set f : ℚ := (s : ℚ) / 65535 * k * (1 - m) + m with hf
  have hs : (0 : ℚ) ≤ (s : ℚ) / 65535 * k := by positivity
  have hf0 : 0 ≤ f := add_nonneg (mul_nonneg hs (by linarith)) hm0
  have hx0 : 0 ≤ min M f * 255 := mul_nonneg (le_min hM0 hf0) (by norm_num)
  have hx255 : min M f * 255 ≤ 255 := by
    have h1 : min M f ≤ 1 := le_trans (min_le_left _ _) hM1
    nlinarith
  rw [max_eq_right hx0, min_eq_right hx255,
    min_eq_right (rustRound_le_255 _ hx0 hx255), max_eq_right (rustRound_nonneg _ hx0)]

theorem default_config_valid :
    load_config (Except.ok InfraredConfig.default) = Except.ok InfraredConfig.default := by
  rw [load_config_ok_iff]
  norm_num [InfraredConfig.default]

theorem load_config_ok_or_error (c : InfraredConfig) :
    load_config (Except.ok c) = Except.ok c ∨
      ∃ e, load_config (Except.ok c) = Except.error e := by
  simp only [load_config]
  split_ifs <;> simp

theorem check_and_reload_snd (st : InfraredConfigManager) (cm : Except String ℕ)
    (p : Except String InfraredConfig) :
    (check_and_reload st cm p).2 = st ∨ (check_and_reload st cm p).1 = Except.ok true := by
  unfold check_and_reload
  cases cm with
  | error e => exact Or.inl rfl
  | ok current =>
    cases hlm : st.last_modified with
    | none => exact Or.inl rfl
    | some last =>
      by_cases hc : last < current
      · cases hL : load_config p with
        | error e => simp [hc, hL]
        | ok c => simp [hc, hL]
      · simp [hc]

theorem rustRound_mono_of_nonneg (x y : ℚ) (hx : 0 ≤ x) (hxy : x ≤ y) :
    rustRound x ≤ rustRound y := by
  rw [rustRound_of_nonneg x hx, rustRound_of_nonneg y (le_trans hx hxy)]
  exact Int.floor_le_floor (by linarith)

theorem push_seq_fill {α : Type} (xs : List α) : ∀ (rb : RingBuf α) (n : ℕ),
    rb.data.length + xs.length ≤ rb.cap →
    xs.foldl push_step (rb, n) = ({ rb with data := rb.data ++ xs }, n) := by
  induction xs with
  | nil => intro rb n h; simp
  | cons x xs ih =>
    intro rb n h
    simp only [List.foldl_cons]
    have hlt : rb.data.length < rb.cap := by
      simp only [List.length_cons] at h
      omega
    have hstep : push_step (rb, n) x = ({ rb with data := rb.data ++ [x] }, n) := by
      simp [push_step, RingBuf.try_push, hlt]
    rw [hstep, ih]
    · simp
    · simp only [List.length_append, List.length_cons] at h ⊢
      simp
      omega

theorem chunks_go_fuel {α : Type} :
    ∀ (fuel1 fuel2 n : ℕ) (l : List α), l.length ≤ fuel1 → l.length ≤ fuel2 →
      chunks_go fuel1 n l = chunks_go fuel2 n l := by
  intro fuel1
  induction fuel1 with
  | zero =>
    intro fuel2 n l h1 h2
    have hl : l = [] := List.eq_nil_of_length_eq_zero (Nat.le_zero.mp h1)
    subst hl
    cases fuel2 with
    | zero => rfl
    | succ fuel2 =>
      simp only [chunks_go, List.length_nil]
      rw [if_neg]
      omega
  | succ fuel1 ih =>
    intro fuel2 n l h1 h2
    cases fuel2 with
    | zero =>
      have hl : l = [] := List.eq_nil_of_length_eq_zero (Nat.le_zero.mp h2)
      subst hl
      simp only [chunks_go, List.length_nil]
      rw [if_neg]
      omega
    | succ fuel2 =>
      simp only [chunks_go]
      by_cases hc : 0 < n ∧ n ≤ l.length
      · rw [if_pos hc, if_pos hc, ih fuel2 n (l.drop n) ?_ ?_]
        · rw [List.length_drop]
          omega
        · rw [List.length_drop]
          omega
      · rw [if_neg hc, if_neg hc]

theorem chunks_go_sizes {α : Type} :
    ∀ (fuel n : ℕ) (l : List α), ∀ c ∈ (chunks_go fuel n l).1, c.length = n := by
  intro fuel
  induction fuel with
  | zero => intro n l c hc; simp [chunks_go] at hc
  | succ fuel ih =>
    intro n l c hc
    simp only [chunks_go] at hc
    by_cases h : 0 < n ∧ n ≤ l.length
    · rw [if_pos h] at hc
      rcases List.mem_cons.mp hc with h1 | h1
      · subst h1
        rw [List.length_take]
        omega
      · exact ih n (l.drop n) c h1
    · rw [if_neg h] at hc
      simp at hc

theorem chunks_go_join {α : Type} :
    ∀ (fuel n : ℕ) (l : List α),
      (chunks_go fuel n l).1.flatten ++ (chunks_go fuel n l).2 = l := by
  intro fuel
  induction fuel with
  | zero => intro n l; simp [chunks_go]
  | succ fuel ih =>
    intro n l
    simp only [chunks_go]
    by_cases h : 0 < n ∧ n ≤ l.length
    · rw [if_pos h]
      simp only [List.flatten_cons, List.append_assoc]
      rw [ih n (l.drop n), List.take_append_drop]
    · rw [if_neg h]
      simp

theorem chunks_go_remainder {α : Type} :
    ∀ (fuel n : ℕ) (l : List α), 0 < n → l.length ≤ fuel →
      (chunks_go fuel n l).2.length < n := by
  intro fuel
  induction fuel with
  | zero =>
    intro n l hn hf
    simp only [chunks_go]
    omega
  | succ fuel ih =>
    intro n l hn hf
    simp only [chunks_go]
    by_cases h : 0 < n ∧ n ≤ l.length
    · rw [if_pos h]
      exact ih n (l.drop n) hn (by rw [List.length_drop]; omega)
    · rw [if_neg h]
      simp only
      omega

/-- Sanity check that `drain_frames` is the `pop_frame`-driven loop of the
source: one `pop_frame` step peels off exactly one chunk. -/
theorem drain_frames_unfold {α : Type} (b : AudioFrameBuffer α) (n : ℕ) (hn : 0 < n) :
    drain_frames b n =
      match b.pop_frame n with
      | none => ([], b)
      | some (c, b2) => (c :: (drain_frames b2 n).1, (drain_frames b2 n).2) := by
  obtain ⟨l⟩ := b
  simp only [drain_frames, AudioFrameBuffer.pop_frame]
  by_cases h : n ≤ l.length
  · rw [if_pos h]
    have hlen : 0 < l.length := lt_of_lt_of_le hn h
    obtain ⟨fl, hfl⟩ : ∃ fl, l.length = fl + 1 := ⟨l.length - 1, by omega⟩
    simp only
    rw [hfl]
    simp only [chunks_go]
    rw [if_pos ⟨hn, by omega⟩]
    have hfuel : chunks_go fl n (l.drop n) = chunks_go (l.drop n).length n (l.drop n) :=
      chunks_go_fuel fl (l.drop n).length n (l.drop n)
        (by rw [List.length_drop]; omega) (le_refl _)
    rw [hfuel]
  · rw [if_neg h]
    simp only
    cases hl : l.length with
    | zero => simp [chunks_go]
    | succ fl =>
      simp only [chunks_go]
      rw [if_neg (by omega)]

theorem reframe_flatten {α : Type} (n : ℕ) :
    ∀ (batches : List (List α)) (cs : List (List α)) (b : AudioFrameBuffer α),
      (batches.foldl (reframe_step n) (cs, b)).1.flatten
          ++ (batches.foldl (reframe_step n) (cs, b)).2.samples
        = cs.flatten ++ b.samples ++ batches.flatten := by
  intro batches
  induction batches with
  | nil => intro cs b; simp
  | cons batch batches ih =>
    intro cs b
    simp only [List.foldl_cons, List.flatten_cons]
    rw [ih]
    simp only [reframe_step, drain_frames, AudioFrameBuffer.append_samples]
    simp only [List.flatten_append, List.append_assoc]
    congr 1
    rw [← List.append_assoc, chunks_go_join]
    simp

theorem reframe_sizes {α : Type} (n : ℕ) :
    ∀ (batches : List (List α)) (cs : List (List α)) (b : AudioFrameBuffer α),
      (∀ c ∈ cs, c.length = n) →
      ∀ c ∈ (batches.foldl (reframe_step n) (cs, b)).1, c.length = n := by
  intro batches
  induction batches with
  | nil => intro cs b h; exact h
  | cons batch batches ih =>
    intro cs b h
    apply ih
    intro c hc
    rcases List.mem_append.mp hc with h1 | h1
    · exact h c h1
    · exact chunks_go_sizes _ n _ c h1

theorem reframe_remainder {α : Type} (n : ℕ) (hn : 0 < n) :
    ∀ (batches : List (List α)) (cs : List (List α)) (b : AudioFrameBuffer α),
      b.samples.length < n →
      (batches.foldl (reframe_step n) (cs, b)).2.samples.length < n := by
  intro batches
  induction batches with
  | nil => intro cs b h; exact h
  | cons batch batches ih =>
    intro cs b h
    apply ih
    exact chunks_go_remainder _ n _ hn (le_refl _)

theorem rustTrunc_le_of_le (x : ℚ) (h : x ≤ 32767) : rustTrunc x ≤ 32767 := by
  rw [rustTrunc]
  split_ifs with h0
  · rw [ratFloor_eq]
    calc ⌊x⌋ ≤ ⌊(32767 : ℚ)⌋ := Int.floor_le_floor h
    _ = 32767 := by norm_num
  · rw [ratCeil_eq]
    have hc : ⌈x⌉ ≤ 0 := Int.ceil_le.mpr (by push_cast; exact le_of_lt (lt_of_not_le h0))
    omega

theorem le_rustTrunc_of_le (x : ℚ) (h : -32767 ≤ x) : -32767 ≤ rustTrunc x := by
  rw [rustTrunc]
  split_ifs with h0
  · rw [ratFloor_eq]
    have hf : (0 : ℤ) ≤ ⌊x⌋ := Int.floor_nonneg.mpr h0
    omega
  · rw [ratCeil_eq]
    calc (-32767 : ℤ) = ⌈(-32767 : ℚ)⌉ := by
          rw [show ((-32767 : ℚ)) = (((-32767 : ℤ) : ℚ)) by norm_num, Int.ceil_intCast]
    _ ≤ ⌈x⌉ := Int.ceil_mono h

/-! ## Claim theorems -/

/-- C1: each modality's frame channel (capacity 16 for color, 32 for infrared
and for audio) never blocks: a push onto a full channel merely drops the
incoming item; pushing `N + 1` items with no intervening pop yields exactly
one drop while the channel retains the first `N` items in insertion order;
and popping an empty channel returns no data immediately. -/
theorem frame_channel_bounded_drop :
    ∀ (α : Type) (N : ℕ),
      (N = color_channel_capacity ∨ N = infrared_channel_capacity ∨
        N = audio_channel_capacity) →
      (∀ xs : List α, xs.length = N + 1 →
        (push_seq (RingBuf.empty α N) xs).1.data = xs.take N ∧
        (push_seq (RingBuf.empty α N) xs).2 = 1) ∧
      RingBuf.try_pop (RingBuf.empty α N) = none := by
  intro α N _
  constructor
  · intro xs hlen
    have htake : (xs.take N).length = N := by
      rw [List.length_take]
      omega
    have hdrop : (xs.drop N).length = 1 := by
      rw [List.length_drop, hlen]
      omega
    obtain ⟨a, ha⟩ := List.length_eq_one.mp hdrop
    have h1 : xs.foldl push_step (RingBuf.empty α N, 0)
        = (xs.take N ++ xs.drop N).foldl push_step (RingBuf.empty α N, 0) := by
      rw [List.take_append_drop]
    rw [push_seq, h1, List.foldl_append,
      push_seq_fill (xs.take N) _ 0 (by simp [RingBuf.empty, htake]), ha]
    simp [push_step, RingBuf.try_push, RingBuf.empty, htake]
  · rfl

/-- Witness for C1 at the color capacity 16 with 17 concrete items. -/
theorem frame_channel_bounded_drop_witness :
    (16 = color_channel_capacity ∨ 16 = infrared_channel_capacity ∨
      16 = audio_channel_capacity) ∧
    (List.range 17).length = 16 + 1 ∧
    (push_seq (RingBuf.empty ℕ 16) (List.range 17)).1.data = (List.range 17).take 16 ∧
    (push_seq (RingBuf.empty ℕ 16) (List.range 17)).2 = 1 ∧
    RingBuf.try_pop (RingBuf.empty ℕ 16) = none := by
  have h := frame_channel_bounded_drop ℕ 16 (Or.inl rfl)
  exact ⟨Or.inl rfl, by decide, (h.1 (List.range 17) (by decide)).1,
    (h.1 (List.range 17) (by decide)).2, h.2⟩

/-- C2: for every raw 16-bit sample `s` and every validated config, the LUT
generator produces `round(clamp(min(output_max, (s / 65535) * scale *
(1 - output_min) + output_min) * 255, 0, 255))`; with the default config
(min 0.25, max 1.0, scale 3.0), `LUT[0] = 64` and `LUT[65535] = 255`. -/
theorem generate_lut_matches_spec_formula :
    (∀ (config : InfraredConfig) (s : ℕ),
        load_config (Except.ok config) = Except.ok config → s ≤ 65535 →
        generate_lut config s = lut_entry_spec config s)
    ∧ generate_lut InfraredConfig.default 0 = 64
    ∧ generate_lut InfraredConfig.default 65535 = 255 := by
  refine ⟨fun config s hv _ => ?_, ?_, ?_⟩
  · obtain ⟨hm0, hm1, hM0, hM1, hmM, hk⟩ := (load_config_ok_iff config).mp hv
    exact generate_lut_eq_spec config s hm0 hm1 hM0 hM1 hk
  · norm_num [generate_lut, rustRound, ratFloor_eq, INFRARED_SOURCE_VALUE_MAXIMUM,
      InfraredConfig.default, min_def, max_def, Int.floor_eq_iff]
    rfl
  · norm_num [generate_lut, rustRound, ratFloor_eq, INFRARED_SOURCE_VALUE_MAXIMUM,
      InfraredConfig.default, min_def, max_def, Int.floor_eq_iff]
    rfl

/-- Witness for C2 at the default configuration and sample 1000. -/
theorem generate_lut_matches_spec_formula_witness :
    load_config (Except.ok InfraredConfig.default) = Except.ok InfraredConfig.default ∧
    (1000 : ℕ) ≤ 65535 ∧
    generate_lut InfraredConfig.default 1000 = lut_entry_spec InfraredConfig.default 1000 :=
  ⟨default_config_valid, by norm_num,
    generate_lut_matches_spec_formula.1 InfraredConfig.default 1000 default_config_valid
      (by norm_num)⟩

/-- Counterexample to C3 as stated: a session-end event on a zero counter is
not clamped to zero — `fetch_sub` wraps the counter to `2 ^ 64 - 1`, and the
gate then reads active. -/
theorem activation_counter_clamp_counterexample :
    session_end 0 ≠ 0 ∧ session_end 0 = USIZE_MOD - 1 ∧
      is_stream_active (session_end 0) = true := by
  refine ⟨by decide, by decide, by decide⟩

/-- C3 amended: the session counter is a wrapping 64-bit unsigned value, so it
never goes below zero and never leaves `[0, 2^64)`; after two starts followed
by two ends the counter is exactly zero and the gate reads inactive; but an
unmatched end on a zero counter wraps to `2 ^ 64 - 1` instead of being
clamped. -/
theorem activation_counter_pairing :
    session_end (session_end (session_start (session_start 0))) = 0
    ∧ is_stream_active (session_end (session_end (session_start (session_start 0)))) = false
    ∧ (∀ c : ℕ, session_start c < USIZE_MOD ∧ session_end c < USIZE_MOD)
    ∧ session_end 0 = USIZE_MOD - 1 := by
  refine ⟨by decide, by decide,
    fun c => ⟨Nat.mod_lt _ (by norm_num [USIZE_MOD]), Nat.mod_lt _ (by norm_num [USIZE_MOD])⟩,
    by decide⟩

/-- C4: a configuration reload fails exactly when the document is unreadable
or unparsable (an `Except.error` input) or violates the validation rules
(both bounds in `[0,1]`, min strictly below max, scale strictly positive);
on any failure the active snapshot and its recorded modification time are
left unchanged. -/
theorem config_reload_failure_no_change :
    (∀ e, load_config (Except.error e) = Except.error e)
    ∧ (∀ c : InfraredConfig,
        (∃ e, load_config (Except.ok c) = Except.error e) ↔
          ¬(0 ≤ c.infrared_output_value_minimum ∧ c.infrared_output_value_minimum ≤ 1 ∧
            0 ≤ c.infrared_output_value_maximum ∧ c.infrared_output_value_maximum ≤ 1 ∧
            c.infrared_output_value_minimum < c.infrared_output_value_maximum ∧
            0 < c.infrared_source_scale))
    ∧ (∀ (st : InfraredConfigManager) (cm : Except String ℕ)
        (p : Except String InfraredConfig) (e : String),
        (check_and_reload st cm p).1 = Except.error e →
        (check_and_reload st cm p).2 = st) := by
  refine ⟨fun e => rfl, fun c => ⟨?_, ?_⟩, ?_⟩
  · rintro ⟨e, he⟩ hrules
    rw [(load_config_ok_iff c).mpr hrules] at he
    exact Except.noConfusion he
  · intro hn
    rcases load_config_ok_or_error c with h | h
    · exact absurd ((load_config_ok_iff c).mp h) hn
    · exact h
  · intro st cm p e h
    rcases check_and_reload_snd st cm p with h2 | h2
    · exact h2
    · rw [h] at h2
      exact Except.noConfusion h2

/-- Witness for C4: reloading a parsed document with `output_min = 0.5 ≥
output_max = 0.25` fails and leaves the manager state untouched. -/
theorem config_reload_failure_no_change_witness :
    (check_and_reload ⟨InfraredConfig.default, some 3⟩ (Except.ok 5)
        (Except.ok ⟨1 / 2, 1 / 4, 3⟩)).1 =
      Except.error "infrared_output_value_minimum must be less than infrared_output_value_maximum"
    ∧ (check_and_reload ⟨InfraredConfig.default, some 3⟩ (Except.ok 5)
        (Except.ok ⟨1 / 2, 1 / 4, 3⟩)).2 = ⟨InfraredConfig.default, some 3⟩ := by
  have h1 : (check_and_reload ⟨InfraredConfig.default, some 3⟩ (Except.ok 5)
      (Except.ok ⟨1 / 2, 1 / 4, 3⟩)).1 =
      Except.error
        "infrared_output_value_minimum must be less than infrared_output_value_maximum" := by
    norm_num [check_and_reload, load_config]
  exact ⟨h1, config_reload_failure_no_change.2.2 _ _ _ _ h1⟩

set_option maxRecDepth 100000 in
/-- C5: every chunk the audio accumulator emits is exactly 320 samples long,
chunks come in strict sample-arrival order with the partial remainder
retained across calls, and the concatenation of all emitted chunks followed
by the final buffered remainder reproduces the full input sample sequence;
appending a 500-sample batch yields one chunk (the first 320 samples) and
retains 180, and a further 200-sample batch yields exactly one more chunk and
retains 60. -/
theorem audio_reframing (α : Type) (batches : List (List α)) :
    (∀ c ∈ (reframe FRAME_SIZE batches).1, c.length = FRAME_SIZE)
    ∧ (reframe FRAME_SIZE batches).1.flatten ++ (reframe FRAME_SIZE batches).2.samples
        = batches.flatten
    ∧ (reframe FRAME_SIZE batches).2.samples.length < FRAME_SIZE
    ∧ reframe FRAME_SIZE [(List.range 700).take 500]
        = ([(List.range 700).take 320], ⟨((List.range 700).take 500).drop 320⟩)
    ∧ reframe FRAME_SIZE [(List.range 700).take 500, (List.range 700).drop 500]
        = ([(List.range 700).take 320, ((List.range 700).drop 320).take 320],
            ⟨(List.range 700).drop 640⟩)
    ∧ (((List.range 700).take 500).drop 320).length = 180
    ∧ ((List.range 700).drop 640).length = 60 := by
  refine ⟨reframe_sizes FRAME_SIZE batches [] (AudioFrameBuffer.new α) (by simp), ?_, ?_,
    by decide, by decide, by decide, by decide⟩
  · have h := reframe_flatten FRAME_SIZE batches [] (AudioFrameBuffer.new α)
    simpa [reframe, AudioFrameBuffer.new] using h
  · exact reframe_remainder FRAME_SIZE (by norm_num [FRAME_SIZE]) batches []
      (AudioFrameBuffer.new α) (by simp [AudioFrameBuffer.new, FRAME_SIZE])

/-- Witness for C5 on a concrete two-batch input. -/
theorem audio_reframing_witness :
    (∀ c ∈ (reframe FRAME_SIZE [List.range 500, List.range 200]).1,
        c.length = FRAME_SIZE)
    ∧ (reframe FRAME_SIZE [List.range 500, List.range 200]).1.flatten
          ++ (reframe FRAME_SIZE [List.range 500, List.range 200]).2.samples
        = [List.range 500, List.range 200].flatten :=
  ⟨(audio_reframing ℕ [List.range 500, List.range 200]).1,
    (audio_reframing ℕ [List.range 500, List.range 200]).2.1⟩

/-- Counterexample to C6 as stated: at input 0.5 the code truncates
`0.5 * 32767 = 16383.5` toward zero to 16383, while the claimed
`round(clamp(x, -1, 1) * 32767)` gives 16384. -/
theorem audio_sample_round_counterexample :
    send_audio_sample (1 / 2) = 16383
    ∧ rustRound (rustClamp (1 / 2) (-1) 1 * 32767) = 16384
    ∧ send_audio_sample (1 / 2) ≠ rustRound (rustClamp (1 / 2) (-1) 1 * 32767) := by
  have h1 : rustClamp (1 / 2 : ℚ) (-1) 1 = 1 / 2 := by
    rw [rustClamp]
    norm_num [min_def, max_def]
  have h2 : send_audio_sample (1 / 2) = 16383 := by
    rw [send_audio_sample, h1, rustAsI16, rustTrunc, if_pos (by norm_num), ratFloor_eq]
    norm_num [Int.floor_eq_iff, min_def, max_def]
  have h3 : rustRound (rustClamp (1 / 2) (-1) 1 * 32767) = 16384 := by
    rw [h1, rustRound, if_pos (by norm_num), ratFloor_eq]
    norm_num [Int.floor_eq_iff]
  exact ⟨h2, h3, by rw [h2, h3]; decide⟩

/-- C6 amended: the published 16-bit value is the saturating truncation
toward zero of `clamp(x, -1, 1) * 32767` (Rust's `as i16` cast), not its
rounding; in particular 1.0 converts to 32767, -1.0 to -32767 and 0.0
to 0. -/
theorem audio_sample_conversion :
    send_audio_sample 1 = 32767
    ∧ send_audio_sample (-1) = -32767
    ∧ send_audio_sample 0 = 0
    ∧ ∀ x : ℚ, send_audio_sample x = rustTrunc (rustClamp x (-1) 1 * 32767) := by
  have huniv : ∀ x : ℚ, send_audio_sample x = rustTrunc (rustClamp x (-1) 1 * 32767) := by
    intro x
    rw [send_audio_sample, rustAsI16]
    have hc1 : rustClamp x (-1) 1 ≤ 1 := min_le_left _ _
    have hc2 : -1 ≤ rustClamp x (-1) 1 := le_min (by norm_num) (le_max_left _ _)
    have hb1 : rustClamp x (-1) 1 * 32767 ≤ 32767 := by nlinarith
    have hb2 : -32767 ≤ rustClamp x (-1) 1 * 32767 := by nlinarith
    have t1 := rustTrunc_le_of_le _ hb1
    have t2 := le_rustTrunc_of_le _ hb2
    rw [min_eq_right t1, max_eq_right (by omega)]
  refine ⟨?_, ?_, ?_, huniv⟩
  · rw [huniv 1, rustClamp]
    norm_num [min_def, max_def, rustTrunc, ratFloor_eq, ratCeil_eq, Int.floor_eq_iff,
      Int.ceil_eq_iff]
  · rw [huniv (-1), rustClamp]
    norm_num [min_def, max_def, rustTrunc, ratFloor_eq, ratCeil_eq, Int.floor_eq_iff,
      Int.ceil_eq_iff]
  · rw [huniv 0, rustClamp]
    norm_num [min_def, max_def, rustTrunc, ratFloor_eq, ratCeil_eq, Int.floor_eq_iff,
      Int.ceil_eq_iff]

/-- C7: when the audio publish loop pops a non-empty frame, it appends the
payload (reinterpreted as little-endian 32-bit float words) to the
accumulator and drains full chunks if and only if the payload byte length is
a multiple of 4; otherwise the frame is skipped and the accumulator is left
unchanged. -/
theorem audio_publish_skips_malformed (b : AudioFrameBuffer ℕ) (frame_data : List ℕ)
    (hne : frame_data ≠ []) :
    (frame_data.length % 4 = 0 →
      audio_frame_publish_step b frame_data =
        ((drain_frames (b.append_samples (group_f32_le frame_data)) FRAME_SIZE).2,
         (drain_frames (b.append_samples (group_f32_le frame_data)) FRAME_SIZE).1))
    ∧ (frame_data.length % 4 ≠ 0 →
        audio_frame_publish_step b frame_data = (b, [])) := by
  have hemp : frame_data.isEmpty = false := by
    cases frame_data with
    | nil => exact absurd rfl hne
    | cons x xs => rfl
  constructor
  · intro h4
    simp [audio_frame_publish_step, hemp, try_cast_slice_f32, h4]
  · intro h4
    simp [audio_frame_publish_step, hemp, try_cast_slice_f32, h4]

/-- Witness for C7: a 3-byte frame is skipped, a 4-byte frame is decoded and
appended. -/
theorem audio_publish_skips_malformed_witness :
    ([1, 2, 3] : List ℕ) ≠ []
    ∧ audio_frame_publish_step ⟨[7]⟩ [1, 2, 3] = (⟨[7]⟩, [])
    ∧ ([0, 0, 128, 63] : List ℕ) ≠ []
    ∧ audio_frame_publish_step ⟨[7]⟩ [0, 0, 128, 63] =
        ((drain_frames (AudioFrameBuffer.append_samples ⟨[7]⟩
            (group_f32_le [0, 0, 128, 63])) FRAME_SIZE).2,
         (drain_frames (AudioFrameBuffer.append_samples ⟨[7]⟩
            (group_f32_le [0, 0, 128, 63])) FRAME_SIZE).1) := by
  refine ⟨by decide, ?_, by decide, ?_⟩
  · exact (audio_publish_skips_malformed ⟨[7]⟩ [1, 2, 3] (by decide)).2 (by decide)
  · exact (audio_publish_skips_malformed ⟨[7]⟩ [0, 0, 128, 63] (by decide)).1 (by decide)

/-- Counterexample to C9 as stated: with the gate inactive the infrared
capture loop keeps holding its device resource (only the iterator is
released), so not every modality releases the underlying device when idle. -/
theorem capture_idle_release_counterexample :
    (infrared_capture_step false ⟨true, true⟩).1.capture_held = true
    ∧ (infrared_capture_step false ⟨true, true⟩).1.iter_held = false
    ∧ (infrared_capture_step false ⟨true, true⟩).1 ≠ ⟨false, false⟩ := by
  refine ⟨rfl, rfl, by decide⟩

/-- C9 amended: when the gate reads inactive, the color and audio capture
loops transition to Idle releasing both the iterator and the device resource
and perform no device polling; the infrared capture loop also stops polling
and releases its iterator, but its device resource — acquired once before the
loop — is never released by any loop iteration. -/
theorem capture_idle_release :
    ∀ (st : CaptureState) (a : Bool),
      color_capture_step false st = (⟨false, false⟩, false)
      ∧ audio_capture_step false st = (⟨false, false⟩, false)
      ∧ infrared_capture_step false st = (⟨st.capture_held, false⟩, false)
      ∧ (infrared_capture_step a st).1.capture_held = st.capture_held := by
  intro st a
  refine ⟨rfl, rfl, rfl, ?_⟩
  cases a <;> rfl

/-- C10: every converted audio chunk is published with identical bytes to the
color-stream audio source and the infrared-stream audio source (each whenever
its handle is present): both mounts receive the same S16LE buffer. -/
theorem audio_published_identically (c i : Bool) (samples : List ℚ) :
    (∀ p1 ∈ send_audio_f32 c i samples, ∀ p2 ∈ send_audio_f32 c i samples, p1.2 = p2.2)
    ∧ (∀ p ∈ send_audio_f32 c i samples,
        p.2 = ((samples.map send_audio_sample).map i16_le_bytes).flatten)
    ∧ (c = true → i = true →
        send_audio_f32 c i samples =
          [(AudioSink.colorAudio, ((samples.map send_audio_sample).map i16_le_bytes).flatten),
           (AudioSink.infraAudio,
             ((samples.map send_audio_sample).map i16_le_bytes).flatten)]) := by
  cases c <;> cases i <;> simp [send_audio_f32]

/-- Witness for C10 with both handles present on a concrete chunk. -/
theorem audio_published_identically_witness :
    send_audio_f32 true true [1, -1 / 2] =
      [(AudioSink.colorAudio,
          (([1, -1 / 2].map send_audio_sample).map i16_le_bytes).flatten),
       (AudioSink.infraAudio,
          (([1, -1 / 2].map send_audio_sample).map i16_le_bytes).flatten)] :=
  (audio_published_identically true true [1, -1 / 2]).2.2 rfl rfl

/-- C8: for every configuration satisfying the validation rules, the
generated LUT is non-decreasing in the raw sample value. -/
theorem generate_lut_monotone (config : InfraredConfig)
    (hv : load_config (Except.ok config) = Except.ok config)
    (s1 s2 : ℕ) (h : s1 ≤ s2) :
    generate_lut config s1 ≤ generate_lut config s2 := by
  obtain ⟨hm0, hm1, hM0, hM1, hmM, hk⟩ := (load_config_ok_iff config).mp hv
  obtain ⟨m, M, k⟩ := config
  simp only at hm0 hm1 hM0 hM1 hmM hk
  simp only [generate_lut, INFRARED_SOURCE_VALUE_MAXIMUM]
  have hcast : (s1 : ℚ) ≤ (s2 : ℚ) := Nat.cast_le.mpr h
  have hfmono : (s1 : ℚ) / 65535 * k * (1 - m) + m ≤ (s2 : ℚ) / 65535 * k * (1 - m) + m := by
    have h1m : (0 : ℚ) ≤ 1 - m := by linarith
    have hknn : (0 : ℚ) ≤ k := le_of_lt hk
    gcongr
  have hz : (0 : ℚ) ≤ (s1 : ℚ) / 65535 * k := by positivity
  have hx0 : 0 ≤ min M ((s1 : ℚ) / 65535 * k * (1 - m) + m) * 255 :=
    mul_nonneg (le_min hM0 (add_nonneg (mul_nonneg hz (by linarith)) hm0)) (by norm_num)
  have hxm : min M ((s1 : ℚ) / 65535 * k * (1 - m) + m) * 255
      ≤ min M ((s2 : ℚ) / 65535 * k * (1 - m) + m) * 255 :=
    mul_le_mul_of_nonneg_right (min_le_min (le_refl M) hfmono) (by norm_num)
  exact Int.toNat_le_toNat
    (max_le_max (le_refl 0)
      (min_le_min (le_refl 255) (rustRound_mono_of_nonneg _ _ hx0 hxm)))

/-- Witness for C8 at the default configuration, samples 3 and 5000. -/
theorem generate_lut_monotone_witness :
    load_config (Except.ok InfraredConfig.default) = Except.ok InfraredConfig.default ∧
    (3 : ℕ) ≤ 5000 ∧
    generate_lut InfraredConfig.default 3 ≤ generate_lut InfraredConfig.default 5000 :=
  ⟨default_config_valid, by norm_num,
    generate_lut_monotone InfraredConfig.default default_config_valid 3 5000 (by norm_num)⟩
